import Mathlib

/-!
Verification development for the PulseBlast data-culling engine
(`DataCulling.py`, `otherUtilities.py`).

The Python code is shallowly embedded as pure Lean functions.  Side
effects on the archive collaborator (`setWeights(0, t, f)` calls) are
modelled as explicit event traces; numeric amplitudes, means and
standard deviations are rationals.  Statistical kernels that live in
the `utils` modules of the repository (`chauvenet`, `doubleMAD`,
`getRMSArrayProperties`, `normalizeToMax`, `rmsMatrix2D`) and the
external collaborators (`scipy` FFT/curve fitting, PyPulse `get_toa3`,
the `Archive` backend) are not part of the culling core's source; they
enter the embedding as explicit function parameters, so every theorem
below holds for every behaviour of those collaborators.
-/

set_option autoImplicit false

/-- One `archive.setWeights(v, t = time, f = frequency)` call: the weight
value written and the (subintegration, channel) cell it targets. -/
structure WEvent where
  v : ℚ
  t : Nat
  f : Nat
deriving DecidableEq, Repr

/-- A 2-D boolean rejection mask over the (subintegration, channel) grid,
row-major (one inner list per subintegration). -/
abbrev Mask2 := List (List Bool)

/-- Entry of a 2-D mask at cell `(t, f)`; `false` outside the mask bounds. -/
def maskAt (m : Mask2) (t f : Nat) : Bool :=
  (m.getD t []).getD f false

/-- The criterion name for Chauvenet's criterion. -/
def chauvenetName : String :=
  "chauvenet"

/-- The criterion name for the double median absolute deviation. -/
def dmadName : String :=
  "DMAD"

/-- Message of the `ValueError` raised by `zeroWeights` on a missing
criterion. -/
def zeroWeightsCriterionMsg : String :=
  "Please provide a rejection criterion"

/-- Message of the `ValueError` raised by `zeroWeights` on a missing
archive. -/
def zeroWeightsArchiveMsg : String :=
  "Please provide an archive"

/-- Message of the `ValueError` raised by `rmsRejection` on an unknown
criterion name. -/
def rmsCriterionMsg : String :=
  "Allowed rejection criteria are either chauvenet or DMAD. Please use one of these"

/-- Positions of the `true` entries of one mask row, in increasing order. -/
def truePos : List Bool → List Nat
  | [] => []
  | b :: bs => (if b then [0] else []) ++ (truePos bs).map (fun n => n + 1)

/-- Row-major traversal of the `true` cells of the rows of a mask, the
first row being row `t0`. -/
def npWhere2Aux (t0 : Nat) : Mask2 → List (Nat × Nat)
  | [] => []
  | row :: rest => (truePos row).map (fun f => (t0, f)) ++ npWhere2Aux (t0 + 1) rest

/-- `np.where` on a 2-D boolean array, with the two index arrays zipped
back into coordinate pairs: the positions of the `true` cells in
row-major order (this is exactly what
`zip( np.where( criterion )[0], np.where( criterion )[1] )` iterates over). -/
def npWhere2 (m : Mask2) : List (Nat × Nat) :=
  npWhere2Aux 0 m

/-- The sequence of `setWeights` calls issued by the loop body of
`zeroWeights` for a given criterion mask: one `setWeights(0, t, f)` per
`true` cell, in row-major order. -/
def zeroWeightsEvents (m : Mask2) : List WEvent :=
  (npWhere2 m).map (fun p => ⟨0, p.1, p.2⟩)

/-- `otherUtilities.zeroWeights( criterion, archive, verbose )`.
`None` arguments raise `ValueError` before any weight is touched
(modelled as `Except.error`, carrying no events); otherwise the function
issues the `setWeights(0, t, f)` calls of `zeroWeightsEvents`.  The
archive is an opaque collaborator, so only its presence matters here. -/
def zeroWeights {α : Type} (criterion : Option Mask2) (archive : Option α) :
    Except String (List WEvent) :=
  match criterion with
  | none => .error zeroWeightsCriterionMsg
  | some c =>
    match archive with
    | none => .error zeroWeightsArchiveMsg
    | some _ => .ok (zeroWeightsEvents c)

theorem mem_map_add_one (l : List Nat) (n : Nat) :
    (n + 1) ∈ l.map (fun k => k + 1) ↔ n ∈ l := by
  constructor
  · intro h
    rcases List.mem_map.mp h with ⟨k, hk, hkn⟩
    have hk' : k = n := by omega
    rw [← hk']
    exact hk
  · intro h
    exact List.mem_map.mpr ⟨n, h, rfl⟩

theorem mem_truePos (row : List Bool) (f : Nat) :
    f ∈ truePos row ↔ row.getD f false = true := by
  induction row generalizing f with
  | nil => simp [truePos, List.getD_nil]
  | cons b bs ih =>
    cases f with
    | zero => cases b <;> simp [truePos, List.getD_cons_zero]
    | succ n =>
      rw [List.getD_cons_succ, ← ih n, ← mem_map_add_one (truePos bs) n]
      cases b <;> simp [truePos, Nat.succ_ne_zero]

theorem nodup_truePos (row : List Bool) : (truePos row).Nodup := by
  induction row with
  | nil => simp [truePos]
  | cons b bs ih =>
    have hmap : ((truePos bs).map (fun n => n + 1)).Nodup :=
      ih.map (fun a b h => by omega)
    cases b
    · simpa [truePos] using hmap
    · simp only [truePos, if_true, List.singleton_append, List.nodup_cons]
      refine ⟨?_, hmap⟩
      intro hmem
      rcases List.mem_map.mp hmem with ⟨n, _, hn⟩
      omega

theorem mem_npWhere2Aux (m : Mask2) (t0 t f : Nat) :
    (t, f) ∈ npWhere2Aux t0 m ↔
      (t0 ≤ t ∧ (m.getD (t - t0) []).getD f false = true) := by
  induction m generalizing t0 with
  | nil => simp [npWhere2Aux, List.getD_nil]
  | cons row rest ih =>
    simp only [npWhere2Aux, List.mem_append, List.mem_map, ih]
    constructor
    · rintro (⟨f', hf', heq⟩ | ⟨hle, hget⟩)
      · obtain ⟨rfl, rfl⟩ : t0 = t ∧ f' = f := by
          exact ⟨congrArg Prod.fst heq, congrArg Prod.snd heq⟩
        refine ⟨Nat.le_refl _, ?_⟩
        simpa [Nat.sub_self, List.getD_cons_zero] using (mem_truePos row _).mp hf'
      · refine ⟨by omega, ?_⟩
        have hsub : t - t0 = (t - (t0 + 1)) + 1 := by omega
        rw [hsub, List.getD_cons_succ]
        exact hget
    · rintro ⟨hle, hget⟩
      rcases Nat.eq_or_lt_of_le hle with heq | hlt
      · left
        subst heq
        refine ⟨f, (mem_truePos row f).mpr ?_, rfl⟩
        rw [Nat.sub_self, List.getD_cons_zero] at hget
        exact hget
      · right
        refine ⟨hlt, ?_⟩
        have hsub : t - t0 = (t - (t0 + 1)) + 1 := by omega
        rw [hsub, List.getD_cons_succ] at hget
        exact hget

theorem nodup_npWhere2Aux (m : Mask2) (t0 : Nat) : (npWhere2Aux t0 m).Nodup := by
  induction m generalizing t0 with
  | nil => simp [npWhere2Aux]
  | cons row rest ih =>
    rw [npWhere2Aux, List.nodup_append]
    refine ⟨(nodup_truePos row).map (fun a b h => by simpa using h), ih (t0 + 1), ?_⟩
    intro p hp1 hp2
    rcases List.mem_map.mp hp1 with ⟨f, _, rfl⟩
    have hmem := (mem_npWhere2Aux rest (t0 + 1) t0 f).mp hp2
    omega

theorem mem_npWhere2 (m : Mask2) (t f : Nat) :
    (t, f) ∈ npWhere2 m ↔ maskAt m t f = true := by
  simpa [npWhere2, maskAt] using mem_npWhere2Aux m 0 t f

theorem nodup_npWhere2 (m : Mask2) : (npWhere2 m).Nodup :=
  nodup_npWhere2Aux m 0

theorem mem_zeroWeightsEvents (m : Mask2) (e : WEvent) :
    e ∈ zeroWeightsEvents m ↔ (e.v = 0 ∧ maskAt m e.t e.f = true) := by
  unfold zeroWeightsEvents
  constructor
  · intro h
    rcases List.mem_map.mp h with ⟨p, hp, rfl⟩
    exact ⟨rfl, (mem_npWhere2 m p.1 p.2).mp hp⟩
  · rintro ⟨hv, hm⟩
    apply List.mem_map.mpr
    refine ⟨(e.t, e.f), (mem_npWhere2 m e.t e.f).mpr hm, ?_⟩
    cases e
    simp_all

theorem nodup_zeroWeightsEvents (m : Mask2) : (zeroWeightsEvents m).Nodup := by
  unfold zeroWeightsEvents
  apply List.Nodup.map
  · intro p₁ p₂ h
    cases p₁
    cases p₂
    simpa [WEvent.mk.injEq] using h
  · exact nodup_npWhere2 m

/-- Concatenation of per-cell lists over the (subintegration, channel)
grid, following the row-major double loop
`for time in np.arange( nsubint ): for frequency in np.arange( nchan ):`. -/
def gridCollect {α : Type} (nsubint nchan : Nat) (g : Nat → Nat → List α) : List α :=
  ((List.range nsubint).map (fun t =>
    ((List.range nchan).map (fun f => g t f)).flatten)).flatten

theorem mem_gridCollect {α : Type} (nsubint nchan : Nat)
    (g : Nat → Nat → List α) (a : α) :
    a ∈ gridCollect nsubint nchan g ↔
      ∃ t, t < nsubint ∧ ∃ f, f < nchan ∧ a ∈ g t f := by
  simp [gridCollect, List.mem_flatten, List.mem_map, List.mem_range]

/-- Outputs of `getRMSArrayProperties( data, templateMask )`: the 2-D
off-pulse RMS matrix, its flattened form, and the NaN-ignoring mean and
standard deviation of the flattened values.  The routine lives in the
repository's `utils` package (not part of the culling core's source), so
its outputs are taken as given here. -/
structure RMSProps where
  rmsArray : List (List ℚ)
  linearRmsArray : List ℚ
  mu : ℚ
  sigma : ℚ

/-- `np.reshape( scores, ( nsubint, nchan ) )` for a flat boolean vector,
row-major. -/
def npReshape2 (l : List Bool) (nsubint nchan : Nat) : Mask2 :=
  (List.range nsubint).map (fun t =>
    (List.range nchan).map (fun f => l.getD (t * nchan + f) false))

/-- `DataCull.rmsRejection( criterion, showPlot )`, with the statistics
kernels `chauvenet` and `doubleMAD` (repository `utils.mathUtils`
functions, external to the core source) as explicit parameters.
Dispatches on the criterion name: `chauvenet` applies Chauvenet's
criterion with tightness factor `3` to the 2-D RMS matrix and the
NaN-ignoring mean / standard deviation of `getRMSArrayProperties`;
`DMAD` applies `doubleMAD` to the flattened RMS values and reshapes back
to `(Nsubint, Nchan)`; any other name raises `ValueError` (modelled as
`Except.error`) before `zeroWeights` runs, so no weight is mutated.  On
success it returns the rejection mask, the `setWeights(0, ..)` events of
`u.zeroWeights( rejectionCriterion, self.ar, self.verbose )`, and
whether `len( np.where( rejectionCriterion )[0] ) == 0` (the condition
under which the completion flag is set). -/
def rmsRejection (criterion : String) (props : RMSProps)
    (chauvenet : List (List ℚ) → ℚ → ℚ → ℚ → Mask2)
    (doubleMAD : List ℚ → List Bool)
    (nsubint nchan : Nat) :
    Except String (Mask2 × List WEvent × Bool) :=
  if criterion = chauvenetName then
    let rc := chauvenet props.rmsArray props.mu props.sigma 3
    .ok (rc, zeroWeightsEvents rc, (npWhere2 rc).length == 0)
  else if criterion = dmadName then
    let rc := npReshape2 (doubleMAD props.linearRmsArray) nsubint nchan
    .ok (rc, zeroWeightsEvents rc, (npWhere2 rc).length == 0)
  else
    .error rmsCriterionMsg

/-- Python `all( xs )` on a sequence of numbers: `true` iff every element
is truthy (non-zero).  Note this is NOT "all elements are zero". -/
def pyAll (l : List ℚ) : Bool :=
  l.all (fun x => decide (x ≠ 0))

/-- One body of the double loop of `DataCull.fourierTransformRejection`
for the cell `(t, f)`, given `s`, the cell's centered, peak-normalized
magnitude spectrum (`fftshift( abs( normalizeToMax( abs( fft(..).T ) ) ) )`,
computed by external `scipy` / `utils.mathUtils` code), and `fitSnd`,
the second fitted parameter `params[0][1]` of
`opt.curve_fit( curve, .., s, p0 = guess_params )`.
The source guard is `if all( profFFT[time][frequency] ) == 0: continue`,
i.e. the cell is skipped exactly when `pyAll s` is `false`; otherwise the
fit runs (recorded in the first component) and the weight is set to 0
exactly when the second fitted parameter is negative. -/
def fourierCell (fitSnd : List ℚ → ℚ) (s : List ℚ) (t f : Nat) :
    List (Nat × Nat) × List WEvent :=
  if pyAll s = false then ([], [])
  else ([(t, f)], if fitSnd s < 0 then [⟨0, t, f⟩] else [])

/-- `DataCull.fourierTransformRejection( criterion, .. )`: the double
loop over subintegrations and channels.  Returns the list of cells whose
spectrum was curve-fitted and the `setWeights(0, t, f)` events issued. -/
def fourierTransformRejection (nsubint nchan : Nat)
    (profSpec : Nat → Nat → List ℚ) (fitSnd : List ℚ → ℚ) :
    List (Nat × Nat) × List WEvent :=
  (gridCollect nsubint nchan (fun t f => (fourierCell fitSnd (profSpec t f) t f).1),
   gridCollect nsubint nchan (fun t f => (fourierCell fitSnd (profSpec t f) t f).2))

/-- One body of the double loop of `DataCull.getBinShifts` for cell
`(t, f)`: `prof` is the cell's profile `self.data[time][frequency]` and
`toaRes` the outcome of the external PyPulse call
`get_toa3( template, prof, rmsArray[t][f], dphi_in=0.1, snrthresh=0.,
nlagsfit=5, norder=2 )` — `some (tauhat, sigma_tau)` on success, `none`
when it raises.  An all-zero profile short-circuits to NaN (`none`) for
both quantities without touching the weights; a raising `get_toa3` call
is caught, the cell's weight is set to 0 and NaN is recorded for both. -/
def binShiftCell (prof : List ℚ) (toaRes : Option (ℚ × ℚ)) (t f : Nat) :
    Option ℚ × Option ℚ × List WEvent :=
  if prof.all (fun a => decide (a = 0)) then (none, none, [])
  else
    match toaRes with
    | some r => (some r.1, some r.2, [])
    | none => (none, none, [⟨0, t, f⟩])

/-- `DataCull.getBinShifts()`: sweeps the grid and returns the bin-shift
matrix `nBinShift`, the bin-shift-error matrix `nBinError` (both with
`none` standing for the NaN entries that the source masks with
`np.ma.array( .., mask = np.isnan( .. ) )`), and the `setWeights(0, ..)`
events issued during the sweep. -/
def getBinShifts (nsubint nchan : Nat) (data : Nat → Nat → List ℚ)
    (toa : Nat → Nat → Option (ℚ × ℚ)) :
    List (List (Option ℚ)) × List (List (Option ℚ)) × List WEvent :=
  ((List.range nsubint).map (fun t => (List.range nchan).map (fun f =>
      (binShiftCell (data t f) (toa t f) t f).1)),
   (List.range nsubint).map (fun t => (List.range nchan).map (fun f =>
      (binShiftCell (data t f) (toa t f) t f).2.1)),
   gridCollect nsubint nchan
     (fun t f => (binShiftCell (data t f) (toa t f) t f).2.2))

/-- `DataCull.binShiftRejection( showPlot )`, with the NaN-ignoring mean
and standard deviation (`np.nanmean` / `np.nanstd`) and Chauvenet's
criterion (`utils.mathUtils.chauvenet`, default tightness factor 3) as
explicit parameters, applied to the flattened (reshaped-linear) shift
and error matrices exactly as the source does.  Returns the sweep-time
events of `getBinShifts`, the post-sweep events of the two
`u.zeroWeights` calls on the shift mask and then the error mask, and
whether both masks selected zero cells (the condition under which the
completion flag is set). -/
def binShiftRejection (nsubint nchan : Nat) (data : Nat → Nat → List ℚ)
    (toa : Nat → Nat → Option (ℚ × ℚ))
    (nanmean nanstd : List (Option ℚ) → ℚ)
    (chauvenet : List (List (Option ℚ)) → ℚ → ℚ → ℚ → Mask2) :
    List WEvent × List WEvent × Bool :=
  let r := getBinShifts nsubint nchan data toa
  let muS := nanmean r.1.flatten
  let sigmaS := nanstd r.1.flatten
  let muE := nanmean r.2.1.flatten
  let sigmaE := nanstd r.2.1.flatten
  let rcS := chauvenet r.1 muS sigmaS 3
  let rcE := chauvenet r.2.1 muE sigmaE 3
  (r.2.2,
   zeroWeightsEvents rcS ++ zeroWeightsEvents rcE,
   ((npWhere2 rcS).length == 0) && ((npWhere2 rcE).length == 0))

/-- The exception raised by `DataCull.__init__` when
`os.path.isfile( self.directory + filename )` is false. -/
inductive InitError where
  | fileNotFound (filename : String)
deriving DecidableEq, Repr

/-- The state a successfully constructed `DataCull` object ends up with
(the fields touched by `__init__`); `δ` is the opaque type of the data
cube returned by `Archive.getData()`. -/
structure DataCullState (δ : Type) where
  SNError : Bool
  directory : String
  filename : String
  SNLim : ℚ
  verbose : Bool
  data : δ
deriving DecidableEq, Repr

/-- `DataCull.__init__( filename, template, directory, SNLim, verbose )`.
`cwd` stands for `os.getcwd()`, `isFile` for `os.path.isfile`, `getSN`
for `Archive(..).getSN()` and `getData` for `Archive(..).getData()`
(external collaborators).  `self.SNError` starts `False`; a missing file
raises `FileNotFoundError`; a signal-to-noise ratio strictly below
`SNLim` only sets `self.SNError = True`, after which initialization
still completes and loads the data cube. -/
def DataCull_init {δ : Type} (filename : String) (directoryArg : Option String)
    (SNLim : ℚ) (verbose : Bool) (cwd : String)
    (isFile : String → Bool) (getSN : ℚ) (getData : δ) :
    Except InitError (DataCullState δ) :=
  let snErr0 := false
  let directory :=
    match directoryArg with
    | none => cwd
    | some d => d
  if isFile (directory ++ filename) then
    let snErr1 := if getSN < SNLim then true else snErr0
    .ok ⟨snErr1, directory, filename, SNLim, verbose, getData⟩
  else
    .error (.fileNotFound filename)

/-- Which of the three rejection routines an iteration record belongs
to: `DataCull.fourierTransformRejection`, `DataCull.rmsRejection` or
`DataCull.binShiftRejection`. -/
inductive Tag where
  | F
  | R
  | B
deriving DecidableEq, Repr

/-- One performed strategy iteration inside `DataCull.reject`: which
routine ran, whether that invocation selected zero cells for rejection,
and the value of `self.rejectionCompletionFlag` right after the
invocation returned (the value tested by
`if self.rejectionCompletionFlag: .. break`). -/
structure IterRec where
  tag : Tag
  zeroSel : Bool
  flagAfter : Bool
deriving DecidableEq, Repr

/-- One strategy block of `DataCull.reject`:
`for i in np.arange( iterations ): routine(); if flag: break`.
`step` is the routine's action on the (opaque) archive state `σ`,
returning the new state and whether the invocation selected zero cells
for rejection.  `updatesFlag` records whether the routine writes
`self.rejectionCompletionFlag` at all: `rmsRejection` and
`binShiftRejection` set it to `True` when zero cells were selected
(and never reset it), while `fourierTransformRejection` never touches
it.  Returns the final archive state, the final flag, and the iteration
records in order. -/
def stratLoop {σ : Type} (tag : Tag) (step : σ → σ × Bool) (updatesFlag : Bool) :
    Nat → σ → Bool → σ × Bool × List IterRec
  | 0, s, flag => (s, flag, [])
  | n + 1, s, flag =>
    let r := step s
    let flag' := if updatesFlag then flag || r.2 else flag
    if flag' then (r.1, flag', [⟨tag, r.2, flag'⟩])
    else
      let rest := stratLoop tag step updatesFlag n r.1 flag'
      (rest.1, rest.2.1, ⟨tag, r.2, flag'⟩ :: rest.2.2)

/-- `DataCull.reject( criterion, iterations, fourier, rms, binShift,
showPlots )` on an object whose `self.verbose` is `verbose`.  The flag
is initialized to `False`, each enabled block runs its loop, the
`fourier` and `rms` blocks re-initialize the flag to `False` after their
loop, and — faithfully to the source's indentation — the bin-shift
`for` loop sits inside `if self.verbose:`, so it only runs when both
`binShift` and `verbose` are true.  The three routines are abstracted
as step functions on the archive state; `fourierTransformRejection` and
`rmsRejection` receive the criterion string, `binShiftRejection` does
not.  Returns the final archive state, the final flag, and the
concatenated iteration records. -/
def reject {σ : Type} (criterion : String) (iterations : Nat)
    (fourier rms binShift : Bool) (verbose : Bool)
    (stepF : String → σ → σ × Bool) (stepR : String → σ → σ × Bool)
    (stepB : σ → σ × Bool) (s0 : σ) :
    σ × Bool × List IterRec :=
  let flag0 := false
  let p1 :=
    if fourier then
      let r := stratLoop Tag.F (stepF criterion) false iterations s0 flag0
      (r.1, false, r.2.2)
    else (s0, flag0, ([] : List IterRec))
  let p2 :=
    if rms then
      let r := stratLoop Tag.R (stepR criterion) true iterations p1.1 p1.2.1
      (r.1, false, r.2.2)
    else (p1.1, p1.2.1, ([] : List IterRec))
  let p3 :=
    if binShift && verbose then
      stratLoop Tag.B stepB true iterations p2.1 p2.2.1
    else (p2.1, p2.2.1, ([] : List IterRec))
  (p3.1, p3.2.1, p1.2.2 ++ p2.2.2 ++ p3.2.2)

/-- The iteration records of a `reject` call, in execution order. -/
def rejectTrace {σ : Type} (criterion : String) (iterations : Nat)
    (fourier rms binShift : Bool) (verbose : Bool)
    (stepF : String → σ → σ × Bool) (stepR : String → σ → σ × Bool)
    (stepB : σ → σ × Bool) (s0 : σ) : List IterRec :=
  (reject criterion iterations fourier rms binShift verbose stepF stepR stepB s0).2.2

/-- How many iterations of one routine a trace contains. -/
def countTag (tr : List IterRec) (tag : Tag) : Nat :=
  (tr.filter (fun r => r.tag == tag)).length

theorem stratLoop_tags {σ : Type} (tag : Tag) (step : σ → σ × Bool)
    (updatesFlag : Bool) (n : Nat) (s : σ) (flag : Bool) :
    ∀ r ∈ (stratLoop tag step updatesFlag n s flag).2.2, r.tag = tag := by
  induction n generalizing s flag with
  | zero => simp [stratLoop]
  | succ n ih =>
    intro r hr
    rw [stratLoop] at hr
    by_cases hf : (if updatesFlag then flag || (step s).2 else flag) = true
    · simp only [hf, if_true] at hr
      rcases List.mem_singleton.mp hr with rfl
      rfl
    · rw [if_neg hf] at hr
      rcases List.mem_cons.mp hr with rfl | hr'
      · rfl
      · exact ih _ _ r hr'

theorem stratLoop_length {σ : Type} (tag : Tag) (step : σ → σ × Bool)
    (updatesFlag : Bool) (n : Nat) (s : σ) (flag : Bool) :
    (stratLoop tag step updatesFlag n s flag).2.2.length ≤ n := by
  induction n generalizing s flag with
  | zero => simp [stratLoop]
  | succ n ih =>
    rw [stratLoop]
    by_cases hf : (if updatesFlag then flag || (step s).2 else flag) = true
    · simp [hf]
    · rw [if_neg hf]
      simpa using Nat.succ_le_succ (ih _ _)

theorem stratLoop_flagAfter_updates {σ : Type} (tag : Tag) (step : σ → σ × Bool)
    (n : Nat) (s : σ) :
    ∀ r ∈ (stratLoop tag step true n s false).2.2, r.flagAfter = r.zeroSel := by
  induction n generalizing s with
  | zero => simp [stratLoop]
  | succ n ih =>
    intro r hr
    rw [stratLoop] at hr
    simp only [Bool.false_or, if_true] at hr
    by_cases hz : (step s).2 = true
    · rw [if_pos hz] at hr
      rcases List.mem_singleton.mp hr with rfl
      simp [hz]
    · rw [if_neg hz] at hr
      rcases List.mem_cons.mp hr with rfl | hr'
      · simp [Bool.not_eq_true] at hz
        simp [hz]
      · have hz' : (step s).2 = false := by simpa using hz
        rw [hz'] at hr'
        exact ih _ r hr'

theorem stratLoop_flagAfter_fixed {σ : Type} (tag : Tag) (step : σ → σ × Bool)
    (n : Nat) (s : σ) :
    ∀ r ∈ (stratLoop tag step false n s false).2.2, r.flagAfter = false := by
  induction n generalizing s with
  | zero => simp [stratLoop]
  | succ n ih =>
    intro r hr
    rw [stratLoop] at hr
    simp only [if_false, Bool.false_eq_true] at hr
    rcases List.mem_cons.mp hr with rfl | hr'
    · rfl
    · exact ih _ r hr'

theorem stratLoop_chain {σ : Type} (tag : Tag) (step : σ → σ × Bool)
    (updatesFlag : Bool) (n : Nat) (s : σ) (flag : Bool) :
    List.Chain' (fun a b : IterRec => a.tag = b.tag → a.flagAfter = false)
      (stratLoop tag step updatesFlag n s flag).2.2 := by
  induction n generalizing s flag with
  | zero => simp [stratLoop]
  | succ n ih =>
    rw [stratLoop]
    by_cases hf : (if updatesFlag then flag || (step s).2 else flag) = true
    · simp [hf, List.chain'_singleton]
    · rw [if_neg hf]
      simp only []
      rw [List.chain'_cons']
      refine ⟨?_, ih _ _⟩
      intro y _ _
      simpa using (Bool.not_eq_true _).mp hf

theorem countTag_append (l1 l2 : List IterRec) (tag : Tag) :
    countTag (l1 ++ l2) tag = countTag l1 tag + countTag l2 tag := by
  simp [countTag, List.filter_append]

theorem countTag_le (l : List IterRec) (tag : Tag) : countTag l tag ≤ l.length :=
  List.length_filter_le _ _

theorem countTag_eq_zero {l : List IterRec} {tg tg' : Tag}
    (h : ∀ r ∈ l, r.tag = tg) (hne : tg ≠ tg') : countTag l tg' = 0 := by
  unfold countTag
  rw [List.length_eq_zero]
  rw [List.filter_eq_nil_iff]
  intro r hr
  simp [h r hr, hne]

/-- Unfolding of `reject`: the trace is the concatenation of the three
blocks' traces, each block entered with the completion flag `False`
(initialized before the Fourier block, re-initialized after the Fourier
and RMS blocks), the Fourier and RMS blocks guarded by their own enable
switches and the bin-shift loop guarded by `binShift` AND `verbose`. -/
theorem rejectTrace_eq_blocks {σ : Type} (criterion : String) (iterations : Nat)
    (fourier rms binShift verbose : Bool)
    (stepF stepR : String → σ → σ × Bool) (stepB : σ → σ × Bool) (s0 : σ) :
    ∃ s1 s2 : σ,
      rejectTrace criterion iterations fourier rms binShift verbose stepF stepR stepB s0 =
        (if fourier then (stratLoop Tag.F (stepF criterion) false iterations s0 false).2.2
         else []) ++
        (if rms then (stratLoop Tag.R (stepR criterion) true iterations s1 false).2.2
         else []) ++
        (if binShift && verbose then (stratLoop Tag.B stepB true iterations s2 false).2.2
         else []) := by
  refine ⟨(if fourier then (stratLoop Tag.F (stepF criterion) false iterations s0 false).1
           else s0),
          (if rms then
             (stratLoop Tag.R (stepR criterion) true iterations
               (if fourier then (stratLoop Tag.F (stepF criterion) false iterations s0 false).1
                else s0) false).1
           else
             (if fourier then (stratLoop Tag.F (stepF criterion) false iterations s0 false).1
              else s0)), ?_⟩
  unfold rejectTrace reject
  by_cases hF : fourier <;> by_cases hR : rms <;>
    by_cases hBV : (binShift && verbose) = true <;>
      simp [hF, hR, hBV]

/-- Claim C10: `zeroWeights` raises `ValueError` on a `None` criterion or
archive, mutating no weight (the error carries no `setWeights` events);
otherwise it issues exactly one `setWeights(0, t, f)` call for each cell
of the mask that is `true` (the events are duplicate-free and an event
belongs to the issued list exactly when it writes the value 0 at a
`true` cell), and no call for any `false` cell. -/
theorem claim_C10 {α : Type} (a : α) (c : Mask2) :
    @zeroWeights α none none = .error zeroWeightsCriterionMsg ∧
    @zeroWeights α none (some a) = .error zeroWeightsCriterionMsg ∧
    @zeroWeights α (some c) none = .error zeroWeightsArchiveMsg ∧
    @zeroWeights α (some c) (some a) = .ok (zeroWeightsEvents c) ∧
    (zeroWeightsEvents c).Nodup ∧
    ∀ e : WEvent, e ∈ zeroWeightsEvents c ↔ (e.v = 0 ∧ maskAt c e.t e.f = true) :=
  ⟨rfl, rfl, rfl, rfl, nodup_zeroWeightsEvents c, fun e => mem_zeroWeightsEvents c e⟩

/-- Claim C5: `rmsRejection` with criterion `chauvenet` applies
Chauvenet's criterion with tightness factor 3 to the 2-D RMS matrix and
the NaN-ignoring mean / standard deviation returned by
`getRMSArrayProperties`; with criterion `DMAD` it applies the double-MAD
scores to the flattened RMS values reshaped back to
`(Nsubint, Nchan)`; with any other criterion it raises `ValueError`
without mutating any weight (the error branch is taken before
`zeroWeights` and carries no events). -/
theorem claim_C5 (props : RMSProps)
    (chauvenet : List (List ℚ) → ℚ → ℚ → ℚ → Mask2)
    (doubleMAD : List ℚ → List Bool) (nsubint nchan : Nat) :
    rmsRejection chauvenetName props chauvenet doubleMAD nsubint nchan =
      .ok (chauvenet props.rmsArray props.mu props.sigma 3,
           zeroWeightsEvents (chauvenet props.rmsArray props.mu props.sigma 3),
           ((npWhere2 (chauvenet props.rmsArray props.mu props.sigma 3)).length == 0)) ∧
    rmsRejection dmadName props chauvenet doubleMAD nsubint nchan =
      .ok (npReshape2 (doubleMAD props.linearRmsArray) nsubint nchan,
           zeroWeightsEvents (npReshape2 (doubleMAD props.linearRmsArray) nsubint nchan),
           ((npWhere2 (npReshape2 (doubleMAD props.linearRmsArray) nsubint nchan)).length
             == 0)) ∧
    ∀ criterion : String, criterion ≠ chauvenetName → criterion ≠ dmadName →
      rmsRejection criterion props chauvenet doubleMAD nsubint nchan =
        .error rmsCriterionMsg := by
  refine ⟨rfl, ?_, ?_⟩
  · unfold rmsRejection
    rw [if_neg (by decide), if_pos rfl]
  · intro criterion h1 h2
    unfold rmsRejection
    rw [if_neg h1, if_neg h2]

/-- A criterion name unknown to `rmsRejection`, for the witness below. -/
def otherCriterionName : String :=
  "median"

/-- Witness for C5: concrete kernels and grid dimensions; the `chauvenet`
and `DMAD` branches and the `ValueError` branch each evaluated. -/
theorem claim_C5_witness :
    rmsRejection chauvenetName ⟨[[1]], [1], 0, 1⟩ (fun _ _ _ _ => [[true]])
        (fun _ => [false]) 1 1 =
      .ok ([[true]], [⟨0, 0, 0⟩], false) ∧
    rmsRejection dmadName ⟨[[1]], [1], 0, 1⟩ (fun _ _ _ _ => [[true]])
        (fun _ => [false]) 1 1 =
      .ok ([[false]], [], true) ∧
    otherCriterionName ≠ chauvenetName ∧
    otherCriterionName ≠ dmadName ∧
    rmsRejection otherCriterionName ⟨[[1]], [1], 0, 1⟩ (fun _ _ _ _ => [[true]])
        (fun _ => [false]) 1 1 = .error rmsCriterionMsg := by
  have h := claim_C5 ⟨[[1]], [1], 0, 1⟩ (fun _ _ _ _ => [[true]]) (fun _ => [false]) 1 1
  refine ⟨?_, ?_, by decide, by decide, h.2.2 otherCriterionName (by decide) (by decide)⟩
  · rw [h.1]
    rfl
  · rw [h.2.1]
    rfl

theorem countTag_block_ne {σ : Type} (tag : Tag) (step : σ → σ × Bool) (uf : Bool)
    (n : Nat) (s : σ) (flag : Bool) (b : Bool) (tg : Tag) (hne : tag ≠ tg) :
    countTag (if b = true then (stratLoop tag step uf n s flag).2.2 else []) tg = 0 := by
  by_cases hb : b = true
  · rw [if_pos hb]
    exact countTag_eq_zero (stratLoop_tags _ _ _ _ _ _) hne
  · rw [if_neg hb]
    rfl

theorem countTag_block_le {σ : Type} (tag : Tag) (step : σ → σ × Bool) (uf : Bool)
    (n : Nat) (s : σ) (flag : Bool) (b : Bool) :
    countTag (if b = true then (stratLoop tag step uf n s flag).2.2 else []) tag ≤ n := by
  by_cases hb : b = true
  · rw [if_pos hb]
    exact le_trans (countTag_le _ _) (stratLoop_length _ _ _ _ _ _)
  · rw [if_neg hb]
    exact Nat.zero_le n

/-- Claim C9: for every criterion string, iteration count, strategy
switches and routine behaviour (hence for every grid, including one
where every cell is an outlier and the completion flag never becomes
true), `reject` is a total function — it terminates — and performs at
most `iterations` invocations of each of the three strategy routines. -/
theorem claim_C9 {σ : Type} (criterion : String) (iterations : Nat)
    (fourier rms binShift verbose : Bool)
    (stepF stepR : String → σ → σ × Bool) (stepB : σ → σ × Bool) (s0 : σ) :
    countTag (rejectTrace criterion iterations fourier rms binShift verbose
      stepF stepR stepB s0) Tag.F ≤ iterations ∧
    countTag (rejectTrace criterion iterations fourier rms binShift verbose
      stepF stepR stepB s0) Tag.R ≤ iterations ∧
    countTag (rejectTrace criterion iterations fourier rms binShift verbose
      stepF stepR stepB s0) Tag.B ≤ iterations := by
  obtain ⟨s1, s2, htr⟩ := rejectTrace_eq_blocks criterion iterations fourier rms binShift
    verbose stepF stepR stepB s0
  rw [htr]
  simp only [countTag_append]
  refine ⟨?_, ?_, ?_⟩
  · have h1 := countTag_block_le Tag.F (stepF criterion) false iterations s0 false fourier
    have h2 := countTag_block_ne Tag.R (stepR criterion) true iterations s1 false rms
      Tag.F (by decide)
    have h3 := countTag_block_ne Tag.B stepB true iterations s2 false
      (binShift && verbose) Tag.F (by decide)
    omega
  · have h1 := countTag_block_ne Tag.F (stepF criterion) false iterations s0 false fourier
      Tag.R (by decide)
    have h2 := countTag_block_le Tag.R (stepR criterion) true iterations s1 false rms
    have h3 := countTag_block_ne Tag.B stepB true iterations s2 false
      (binShift && verbose) Tag.R (by decide)
    omega
  · have h1 := countTag_block_ne Tag.F (stepF criterion) false iterations s0 false fourier
      Tag.B (by decide)
    have h2 := countTag_block_ne Tag.R (stepR criterion) true iterations s1 false rms
      Tag.B (by decide)
    have h3 := countTag_block_le Tag.B stepB true iterations s2 false (binShift && verbose)
    omega

/-- Claim C1, evaluated at the failing input: `reject` with all three
strategies enabled, `iterations = 2`, on an object with
`self.verbose = False` (and routines that never report completion, so no
loop stops early), invokes the Fourier and RMS routines twice each but
the bin-shift routine zero times, because the source indents the
bin-shift `for` loop under `if self.verbose:`; with `verbose = True` the
bin-shift routine runs twice.  The claim requires at least one
bin-shift invocation regardless of the verbose setting. -/
theorem claim_C1_eval :
    countTag (rejectTrace chauvenetName 2 true true true false
      (fun _ s => (s + 1, false)) (fun _ s => (s + 1, false))
      (fun s => (s + 1, false)) (0 : Nat)) Tag.B = 0 ∧
    countTag (rejectTrace chauvenetName 2 true true true false
      (fun _ s => (s + 1, false)) (fun _ s => (s + 1, false))
      (fun s => (s + 1, false)) (0 : Nat)) Tag.F = 2 ∧
    countTag (rejectTrace chauvenetName 2 true true true false
      (fun _ s => (s + 1, false)) (fun _ s => (s + 1, false))
      (fun s => (s + 1, false)) (0 : Nat)) Tag.R = 2 ∧
    countTag (rejectTrace chauvenetName 2 true true true true
      (fun _ s => (s + 1, false)) (fun _ s => (s + 1, false))
      (fun s => (s + 1, false)) (0 : Nat)) Tag.B = 2 := by
  refine ⟨?_, ?_, ?_, ?_⟩ <;> rfl

/-- Counterexample to claim C2: a Fourier iteration that selects zero
cells for rejection leaves the completion flag `False`, because
`fourierTransformRejection` never writes the flag — so "flag true iff
the iteration selected zero cells" fails after Fourier iterations. -/
theorem claim_C2_counterexample :
    ¬ (∀ r ∈ rejectTrace chauvenetName 1 true false false false
          (fun _ s => (s, true)) (fun _ s => (s, true)) (fun s => (s, true)) (0 : Nat),
        (r.flagAfter = true ↔ r.zeroSel = true)) := by
  decide

theorem mem_block {σ : Type} {r : IterRec} (tag : Tag) (step : σ → σ × Bool) (uf : Bool)
    (n : Nat) (s : σ) (flag : Bool) (b : Bool)
    (hr : r ∈ (if b = true then (stratLoop tag step uf n s flag).2.2 else [])) :
    r ∈ (stratLoop tag step uf n s flag).2.2 := by
  by_cases hb : b = true
  · rwa [if_pos hb] at hr
  · rw [if_neg hb] at hr
    exact absurd hr (List.not_mem_nil r)

theorem tags_block {σ : Type} (tag : Tag) (step : σ → σ × Bool) (uf : Bool)
    (n : Nat) (s : σ) (flag : Bool) (b : Bool) :
    ∀ r ∈ (if b = true then (stratLoop tag step uf n s flag).2.2 else []), r.tag = tag :=
  fun r hr => stratLoop_tags tag step uf n s flag r (mem_block tag step uf n s flag b hr)

theorem chain_block {σ : Type} (tag : Tag) (step : σ → σ × Bool) (uf : Bool)
    (n : Nat) (s : σ) (flag : Bool) (b : Bool) :
    List.Chain' (fun a a' : IterRec => a.tag = a'.tag → a.flagAfter = false)
      (if b = true then (stratLoop tag step uf n s flag).2.2 else []) := by
  by_cases hb : b = true
  · rw [if_pos hb]
    exact stratLoop_chain tag step uf n s flag
  · rw [if_neg hb]
    exact List.chain'_nil

theorem chain_cross {l1 l2 : List IterRec}
    (h : ∀ x ∈ l1, ∀ y ∈ l2, x.tag ≠ y.tag) :
    ∀ x ∈ l1.getLast?, ∀ y ∈ l2.head?, (x.tag = y.tag → x.flagAfter = false) := by
  intro x hx y hy hxy
  have hxm : x ∈ l1 := by
    rcases List.mem_getLast?_eq_getLast hx with ⟨hne, hxeq⟩
    rw [hxeq]
    exact List.getLast_mem hne
  have hym : y ∈ l2 := by
    rw [List.eq_cons_of_mem_head? hy]
    exact List.mem_cons_self _ _
  exact absurd hxy (h x hxm y hym)

/-- Claim C2, amended: after every RMS or bin-shift iteration performed
inside `reject` the completion flag equals "that iteration selected zero
cells"; `fourierTransformRejection` never writes the flag, so after
every Fourier iteration the flag is `False` regardless of what the
iteration selected; a true flag ends its strategy's loop (no later
iteration of the same strategy follows it in the trace); and each
strategy's loop starts with the flag `False` (initialization before the
Fourier block, re-initialization after the Fourier and RMS blocks). -/
theorem claim_C2_amended {σ : Type} (criterion : String) (iterations : Nat)
    (fourier rms binShift verbose : Bool)
    (stepF stepR : String → σ → σ × Bool) (stepB : σ → σ × Bool) (s0 : σ) :
    (∀ r ∈ rejectTrace criterion iterations fourier rms binShift verbose
        stepF stepR stepB s0,
      ((r.tag = Tag.R ∨ r.tag = Tag.B) → r.flagAfter = r.zeroSel) ∧
      (r.tag = Tag.F → r.flagAfter = false)) ∧
    List.Chain' (fun a a' : IterRec => a.tag = a'.tag → a.flagAfter = false)
      (rejectTrace criterion iterations fourier rms binShift verbose
        stepF stepR stepB s0) := by
  obtain ⟨s1, s2, htr⟩ := rejectTrace_eq_blocks criterion iterations fourier rms binShift
    verbose stepF stepR stepB s0
  rw [htr]
  constructor
  · intro r hr
    rcases List.mem_append.mp hr with h12 | h3
    · rcases List.mem_append.mp h12 with h1 | h2
      · have htag := stratLoop_tags Tag.F (stepF criterion) false iterations s0 false r
          (mem_block _ _ _ _ _ _ _ h1)
        have hfl := stratLoop_flagAfter_fixed Tag.F (stepF criterion) iterations s0 r
          (mem_block _ _ _ _ _ _ _ h1)
        refine ⟨?_, fun _ => hfl⟩
        intro hRB
        rcases hRB with h | h <;> rw [htag] at h <;> exact absurd h (by decide)
      · have htag := stratLoop_tags Tag.R (stepR criterion) true iterations s1 false r
          (mem_block _ _ _ _ _ _ _ h2)
        have hfl := stratLoop_flagAfter_updates Tag.R (stepR criterion) iterations s1 r
          (mem_block _ _ _ _ _ _ _ h2)
        refine ⟨fun _ => hfl, fun hF => ?_⟩
        rw [htag] at hF
        exact absurd hF (by decide)
    · have htag := stratLoop_tags Tag.B stepB true iterations s2 false r
        (mem_block _ _ _ _ _ _ _ h3)
      have hfl := stratLoop_flagAfter_updates Tag.B stepB iterations s2 r
        (mem_block _ _ _ _ _ _ _ h3)
      refine ⟨fun _ => hfl, fun hF => ?_⟩
      rw [htag] at hF
      exact absurd hF (by decide)
  · refine List.Chain'.append (List.Chain'.append ?_ ?_ ?_) ?_ ?_
    · exact chain_block Tag.F (stepF criterion) false iterations s0 false fourier
    · exact chain_block Tag.R (stepR criterion) true iterations s1 false rms
    · apply chain_cross
      intro x hx y hy
      rw [tags_block Tag.F (stepF criterion) false iterations s0 false fourier x hx,
          tags_block Tag.R (stepR criterion) true iterations s1 false rms y hy]
      decide
    · exact chain_block Tag.B stepB true iterations s2 false (binShift && verbose)
    · apply chain_cross
      intro x hx y hy
      have hyB := tags_block Tag.B stepB true iterations s2 false (binShift && verbose) y hy
      rcases List.mem_append.mp hx with h | h
      · rw [tags_block Tag.F (stepF criterion) false iterations s0 false fourier x h, hyB]
        decide
      · rw [tags_block Tag.R (stepR criterion) true iterations s1 false rms x h, hyB]
        decide

/-- Witness for the amended C2: a concrete `reject` run whose RMS
iteration selects zero cells; the record is in the trace and its flag
equals its zero-selection outcome. -/
theorem claim_C2_amended_witness :
    ((⟨Tag.R, true, true⟩ : IterRec) ∈ rejectTrace chauvenetName 1 false true false false
        (fun _ s => (s, false)) (fun _ s => (s, true)) (fun s => (s, false)) (0 : Nat)) ∧
    (⟨Tag.R, true, true⟩ : IterRec).flagAfter = (⟨Tag.R, true, true⟩ : IterRec).zeroSel :=
  ⟨by decide,
   ((claim_C2_amended chauvenetName 1 false true false false
       (fun _ s => (s, false)) (fun _ s => (s, true)) (fun s => (s, false)) 0).1
     ⟨Tag.R, true, true⟩ (by decide)).1 (Or.inl rfl)⟩

/-- Claim C6: constructing a `DataCull` for a file that does not exist in
the given directory raises `FileNotFoundError`; for an existing file
whose signal-to-noise ratio is strictly below the `SNLim` floor,
construction raises no exception — it returns a completed state with the
`SNError` flag set to `True` and the data cube loaded from the archive. -/
theorem claim_C6 {δ : Type} (filename : String) (directoryArg : Option String)
    (SNLim : ℚ) (verbose : Bool) (cwd : String) (isFile : String → Bool)
    (getSN : ℚ) (getData : δ) :
    (isFile ((match directoryArg with | none => cwd | some d => d) ++ filename) = false →
      DataCull_init filename directoryArg SNLim verbose cwd isFile getSN getData =
        .error (.fileNotFound filename)) ∧
    (isFile ((match directoryArg with | none => cwd | some d => d) ++ filename) = true →
      getSN < SNLim →
      DataCull_init filename directoryArg SNLim verbose cwd isFile getSN getData =
        .ok ⟨true, (match directoryArg with | none => cwd | some d => d), filename,
             SNLim, verbose, getData⟩) := by
  cases directoryArg with
  | none =>
    constructor
    · intro h
      simp only [DataCull_init]
      rw [if_neg (by simp [h])]
    · intro h hsn
      simp only [DataCull_init]
      rw [if_pos h, if_pos hsn]
  | some d =>
    constructor
    · intro h
      simp only [DataCull_init]
      rw [if_neg (by simp [h])]
    · intro h hsn
      simp only [DataCull_init]
      rw [if_pos h, if_pos hsn]

/-- A concrete observation filename for the C6 witness. -/
def fnC6 : String :=
  "J1756-2251.fits"

/-- A concrete directory for the C6 witness. -/
def cwdC6 : String :=
  "/data/nancay/"

/-- Witness for C6: with no file present, construction errors with
`FileNotFoundError`; with the file present and SNR 5 below the floor
3000, construction succeeds with `SNError = true` and the data loaded. -/
theorem claim_C6_witness :
    ((fun _ : String => false) (cwdC6 ++ fnC6) = false ∧
     @DataCull_init Nat fnC6 none 3000 false cwdC6 (fun _ => false) 5 7 =
       .error (.fileNotFound fnC6)) ∧
    ((fun _ : String => true) (cwdC6 ++ fnC6) = true ∧ (5 : ℚ) < 3000 ∧
     @DataCull_init Nat fnC6 none 3000 false cwdC6 (fun _ => true) 5 7 =
       .ok ⟨true, cwdC6, fnC6, 3000, false, 7⟩) :=
  ⟨⟨rfl, (claim_C6 fnC6 none 3000 false cwdC6 (fun _ => false) 5 7).1 rfl⟩,
   ⟨rfl, by norm_num,
    (claim_C6 fnC6 none 3000 false cwdC6 (fun _ => true) 5 7).2 rfl (by norm_num)⟩⟩

/-- Claim C3, evaluated at the failing input.  The source's skip guard is
`if all( profFFT[time][frequency] ) == 0: continue`, which is true as
soon as ANY bin of the spectrum is zero (Python `all` tests truthiness),
not only when the spectrum is identically zero.  First conjunct: the
spectrum `[1, 0]` is not identically zero; second: the cell is
nevertheless skipped — no curve fit is recorded and no weight is set,
even with a fit that would return a negative width parameter.  The last
three conjuncts evaluate the surrounding clauses of the claim on inputs
the guard lets through: a cell with spectrum `[1]` is fitted and
zero-weighted exactly when the second fitted parameter is negative, and
an identically-zero spectrum is skipped without fitting. -/
theorem claim_C3_eval :
    (¬ ∀ x ∈ ([1, 0] : List ℚ), x = 0) ∧
    fourierTransformRejection 1 1 (fun _ _ => ([1, 0] : List ℚ)) (fun _ => (-1 : ℚ)) =
      ([], []) ∧
    fourierTransformRejection 1 1 (fun _ _ => ([1] : List ℚ)) (fun _ => (-1 : ℚ)) =
      ([(0, 0)], [⟨0, 0, 0⟩]) ∧
    fourierTransformRejection 1 1 (fun _ _ => ([1] : List ℚ)) (fun _ => (1 : ℚ)) =
      ([(0, 0)], []) ∧
    fourierTransformRejection 1 1 (fun _ _ => ([0, 0] : List ℚ)) (fun _ => (-1 : ℚ)) =
      ([], []) := by
  refine ⟨?_, rfl, rfl, rfl, rfl⟩
  intro h
  have h1 := h 1 (by simp)
  norm_num at h1

/-- Entry of a shift / shift-error matrix at cell `(t, f)`:
`some x` when the cell is in range (with `x = none` standing for a NaN
entry), `none` when out of range. -/
def matAt (m : List (List (Option ℚ))) (t f : Nat) : Option (Option ℚ) :=
  match m[t]? with
  | none => none
  | some row => row[f]?

theorem matAt_rangeMap (n k : Nat) (g : Nat → Nat → Option ℚ) (t f : Nat)
    (ht : t < n) (hf : f < k) :
    matAt ((List.range n).map (fun t => (List.range k).map (fun f => g t f))) t f =
      some (g t f) := by
  unfold matAt
  rw [List.getElem?_map]
  rw [List.getElem?_range ht]
  simp [List.getElem?_map, List.getElem?_range, hf]

/-- Counterexample to claim C4: a 1x1 grid whose only profile is the
degenerate (all-zero) `[0, 0]`.  The sweep records NaN for the cell but
issues NO `setWeights(0, 0, 0)` call — the all-zero branch of
`getBinShifts` short-circuits before `get_toa3` and never touches the
weights — contradicting "zero-weighted immediately during the sweep". -/
theorem claim_C4_counterexample :
    (([0, 0] : List ℚ).all (fun a => decide (a = 0)) = true) ∧
    ¬ ((⟨0, 0, 0⟩ : WEvent) ∈
        (getBinShifts 1 1 (fun _ _ => ([0, 0] : List ℚ)) (fun _ _ => none)).2.2) := by
  constructor
  · rfl
  · intro h
    have he : (getBinShifts 1 1 (fun _ _ => ([0, 0] : List ℚ)) (fun _ _ => none)).2.2 =
        [] := rfl
    rw [he] at h
    exact List.not_mem_nil _ h

/-- Claim C4, amended: during a bin-shift estimation sweep, a cell whose
shift estimation raises (`get_toa3` fails on a profile that is not
all-zero) is zero-weighted immediately during the sweep and has NaN
recorded for both its shift and its uncertainty; a cell whose profile is
degenerate (all-zero) has NaN recorded for both quantities but is NOT
zero-weighted during the sweep (no `setWeights` call targets it); the
sweep itself never aborts on such cells (`getBinShifts` is total and
always returns both matrices). -/
theorem claim_C4_amended (nsubint nchan : Nat) (data : Nat → Nat → List ℚ)
    (toa : Nat → Nat → Option (ℚ × ℚ)) (t f : Nat)
    (ht : t < nsubint) (hf : f < nchan) :
    ((data t f).all (fun a => decide (a = 0)) = false → toa t f = none →
      ((⟨0, t, f⟩ : WEvent) ∈ (getBinShifts nsubint nchan data toa).2.2 ∧
       matAt (getBinShifts nsubint nchan data toa).1 t f = some none ∧
       matAt (getBinShifts nsubint nchan data toa).2.1 t f = some none)) ∧
    ((data t f).all (fun a => decide (a = 0)) = true →
      (matAt (getBinShifts nsubint nchan data toa).1 t f = some none ∧
       matAt (getBinShifts nsubint nchan data toa).2.1 t f = some none ∧
       ∀ e ∈ (getBinShifts nsubint nchan data toa).2.2, ¬(e.t = t ∧ e.f = f))) := by
  constructor
  · intro hall htoa
    refine ⟨?_, ?_, ?_⟩
    · apply (mem_gridCollect _ _ _ _).mpr
      refine ⟨t, ht, f, hf, ?_⟩
      simp [binShiftCell, hall, htoa]
    · rw [show (getBinShifts nsubint nchan data toa).1 =
          (List.range nsubint).map (fun t => (List.range nchan).map (fun f =>
            (binShiftCell (data t f) (toa t f) t f).1)) from rfl,
        matAt_rangeMap nsubint nchan _ t f ht hf]
      simp [binShiftCell, hall, htoa]
    · rw [show (getBinShifts nsubint nchan data toa).2.1 =
          (List.range nsubint).map (fun t => (List.range nchan).map (fun f =>
            (binShiftCell (data t f) (toa t f) t f).2.1)) from rfl,
        matAt_rangeMap nsubint nchan _ t f ht hf]
      simp [binShiftCell, hall, htoa]
  · intro hall
    refine ⟨?_, ?_, ?_⟩
    · rw [show (getBinShifts nsubint nchan data toa).1 =
          (List.range nsubint).map (fun t => (List.range nchan).map (fun f =>
            (binShiftCell (data t f) (toa t f) t f).1)) from rfl,
        matAt_rangeMap nsubint nchan _ t f ht hf]
      simp [binShiftCell, hall]
    · rw [show (getBinShifts nsubint nchan data toa).2.1 =
          (List.range nsubint).map (fun t => (List.range nchan).map (fun f =>
            (binShiftCell (data t f) (toa t f) t f).2.1)) from rfl,
        matAt_rangeMap nsubint nchan _ t f ht hf]
      simp [binShiftCell, hall]
    · intro e he hpair
      rcases (mem_gridCollect _ _ _ _).mp he with ⟨t', ht', f', hf', hcell⟩
      unfold binShiftCell at hcell
      by_cases hz : (data t' f').all (fun a => decide (a = 0)) = true
      · rw [if_pos hz] at hcell
        exact List.not_mem_nil e hcell
      · rw [if_neg hz] at hcell
        cases htoa' : toa t' f' with
        | some p =>
          rw [htoa'] at hcell
          exact List.not_mem_nil e hcell
        | none =>
          rw [htoa'] at hcell
          rcases List.mem_singleton.mp hcell with rfl
          rcases hpair with ⟨het, hef⟩
          have het' : t' = t := het
          have hef' : f' = f := hef
          rw [het', hef'] at hz
          exact hz hall

/-- The C4 witness grid: cell (0,0) has the all-zero profile, cell (0,1)
a profile that is not all-zero. -/
def dataC4 : Nat → Nat → List ℚ :=
  fun _ f => if f = 0 then [0, 0] else [1, 0]

/-- The C4 witness estimator: `get_toa3` raises on every cell. -/
def toaC4 : Nat → Nat → Option (ℚ × ℚ) :=
  fun _ _ => none

/-- Witness for the amended C4 on a 1x2 grid: the failing non-degenerate
cell (0,1) is zero-weighted during the sweep, and the all-zero cell
(0,0) gets NaN recorded. -/
theorem claim_C4_amended_witness :
    (0 < 1 ∧ 1 < 2 ∧ (dataC4 0 1).all (fun a => decide (a = 0)) = false ∧
      toaC4 0 1 = none ∧
      ((⟨0, 0, 1⟩ : WEvent) ∈ (getBinShifts 1 2 dataC4 toaC4).2.2)) ∧
    (0 < 2 ∧ (dataC4 0 0).all (fun a => decide (a = 0)) = true ∧
      matAt (getBinShifts 1 2 dataC4 toaC4).1 0 0 = some none) := by
  refine ⟨⟨by decide, by decide, by decide, rfl, ?_⟩, ⟨by decide, by decide, ?_⟩⟩
  · exact ((claim_C4_amended 1 2 dataC4 toaC4 0 1 (by decide) (by decide)).1
      (by decide) rfl).1
  · exact ((claim_C4_amended 1 2 dataC4 toaC4 0 0 (by decide) (by decide)).2
      (by decide)).1

/-- Claim C7: after a full bin-shift sweep, the post-sweep zero-weighted
cells are exactly the union of the two rejection sets obtained by
applying Chauvenet's criterion (default tightness 3) independently to
the shift matrix and to the uncertainty matrix, each with the
NaN-ignoring mean and standard deviation of its flattened values — an
event is issued by the mask step of `binShiftRejection` iff it writes 0
at a cell selected by the shift mask or by the uncertainty mask. -/
theorem claim_C7 (nsubint nchan : Nat) (data : Nat → Nat → List ℚ)
    (toa : Nat → Nat → Option (ℚ × ℚ)) (nanmean nanstd : List (Option ℚ) → ℚ)
    (chauvenet : List (List (Option ℚ)) → ℚ → ℚ → ℚ → Mask2) (e : WEvent) :
    e ∈ (binShiftRejection nsubint nchan data toa nanmean nanstd chauvenet).2.1 ↔
      (e.v = 0 ∧
        (maskAt (chauvenet (getBinShifts nsubint nchan data toa).1
            (nanmean (getBinShifts nsubint nchan data toa).1.flatten)
            (nanstd (getBinShifts nsubint nchan data toa).1.flatten) 3) e.t e.f = true ∨
         maskAt (chauvenet (getBinShifts nsubint nchan data toa).2.1
            (nanmean (getBinShifts nsubint nchan data toa).2.1.flatten)
            (nanstd (getBinShifts nsubint nchan data toa).2.1.flatten) 3) e.t e.f
           = true)) := by
  unfold binShiftRejection
  simp only [List.mem_append, mem_zeroWeightsEvents]
  tauto

/-- Claim C8: every weight mutation issued by the core's operations —
`zeroWeights` (used by the RMS and bin-shift mask steps), the Fourier
strategy's per-cell loop, and the bin-shift estimation sweep — passes
the value 0 to `setWeights`; no operation ever writes a non-zero weight,
so a zero-weighted cell is never un-rejected within a culling session. -/
theorem claim_C8 (c : Mask2) (nsubint nchan : Nat) (profSpec : Nat → Nat → List ℚ)
    (fitSnd : List ℚ → ℚ) (data : Nat → Nat → List ℚ)
    (toa : Nat → Nat → Option (ℚ × ℚ)) :
    (∀ e ∈ zeroWeightsEvents c, e.v = 0) ∧
    (∀ e ∈ (fourierTransformRejection nsubint nchan profSpec fitSnd).2, e.v = 0) ∧
    (∀ e ∈ (getBinShifts nsubint nchan data toa).2.2, e.v = 0) := by
  refine ⟨fun e he => ((mem_zeroWeightsEvents c e).mp he).1, ?_, ?_⟩
  · intro e he
    rcases (mem_gridCollect _ _ _ _).mp he with ⟨t, _, f, _, hc⟩
    unfold fourierCell at hc
    by_cases hp : pyAll (profSpec t f) = false
    · rw [if_pos hp] at hc
      exact absurd hc (List.not_mem_nil e)
    · rw [if_neg hp] at hc
      by_cases hneg : fitSnd (profSpec t f) < 0
      · rw [if_pos hneg] at hc
        rcases List.mem_singleton.mp hc with rfl
        rfl
      · rw [if_neg hneg] at hc
        exact absurd hc (List.not_mem_nil e)
  · intro e he
    rcases (mem_gridCollect _ _ _ _).mp he with ⟨t, _, f, _, hc⟩
    unfold binShiftCell at hc
    by_cases hz : (data t f).all (fun a => decide (a = 0)) = true
    · rw [if_pos hz] at hc
      exact absurd hc (List.not_mem_nil e)
    · rw [if_neg hz] at hc
      cases htoa : toa t f with
      | some p =>
        rw [htoa] at hc
        exact absurd hc (List.not_mem_nil e)
      | none =>
        rw [htoa] at hc
        rcases List.mem_singleton.mp hc with rfl
        rfl

/-- The C8 witness spectrum: every cell fits with a negative width. -/
def specC8 : Nat → Nat → List ℚ :=
  fun _ _ => [1]

/-- The C8 witness fit: always returns a negative second parameter. -/
def fitC8 : List ℚ → ℚ :=
  fun _ => -1

/-- The C8 witness grid: one non-degenerate profile. -/
def dataC8 : Nat → Nat → List ℚ :=
  fun _ _ => [1, 0]

/-- The C8 witness estimator: `get_toa3` raises on every cell. -/
def toaC8 : Nat → Nat → Option (ℚ × ℚ) :=
  fun _ _ => none

/-- Witness for C8: one concrete event from each of the three operations,
each writing the weight 0. -/
theorem claim_C8_witness :
    ((⟨0, 0, 0⟩ : WEvent) ∈ zeroWeightsEvents [[true]] ∧
      (⟨0, 0, 0⟩ : WEvent).v = 0) ∧
    ((⟨0, 0, 0⟩ : WEvent) ∈ (fourierTransformRejection 1 1 specC8 fitC8).2 ∧
      (⟨0, 0, 0⟩ : WEvent).v = 0) ∧
    ((⟨0, 0, 0⟩ : WEvent) ∈ (getBinShifts 1 1 dataC8 toaC8).2.2 ∧
      (⟨0, 0, 0⟩ : WEvent).v = 0) :=
  ⟨⟨by decide, (claim_C8 [[true]] 1 1 specC8 fitC8 dataC8 toaC8).1 ⟨0, 0, 0⟩ (by decide)⟩,
   ⟨by decide, (claim_C8 [[true]] 1 1 specC8 fitC8 dataC8 toaC8).2.1 ⟨0, 0, 0⟩ (by decide)⟩,
   ⟨by decide, (claim_C8 [[true]] 1 1 specC8 fitC8 dataC8 toaC8).2.2 ⟨0, 0, 0⟩ (by decide)⟩⟩
